import Mathlib

/-!
Shallow embedding of `src/mod.ts` (hazae41/deno-events): a typed,
priority-ordered, cancellable event emitter.

Modelling conventions:
- Listener functions stored in the registry are modelled by numeric
  identities (`Nat`); the behavior of the function with identity `id` is
  given by an environment `Env`, mapping the identity to a state-passing
  function (listeners may mutate the registry, so they take and return an
  `EventEmitter`).
- A JavaScript array with holes (`delete arr[i]` leaves a hole) is
  modelled as `List (Option Nat)`: `some id` is a listener slot, `none`
  is a hole. Spreading an array with holes yields `undefined` at holes,
  and calling `undefined` raises a `TypeError`, modelled by
  `JSError.typeError`.
- A listener call has three observable outcomes: it returns a value
  (ignored by the dispatcher; `value`), it throws a `Cancelled` instance
  (`cancel`), or it throws anything else (`fail`).
- `emit` (async, sequential awaiting) and `emitSync` run the same
  algorithm; both are translated to the same sequential semantics, each
  as its own definition mirroring the two source functions.
- The third component returned by `emit`/`emitSync` is the invocation
  trace: the sequence of (listener identity, payload argument) pairs for
  the calls the dispatch loop performs, in order.
-/

namespace DenoEvents

/-- The three priorities, from `type EventPriority = "before" | "normal" | "after"`. -/
inductive EventPriority : Type where
  | before
  | normal
  | after
  deriving DecidableEq, Repr

/-- `class Cancelled { constructor(readonly reason?: string) }`. -/
structure Cancelled : Type where
  reason : Option String
  deriving DecidableEq, Repr

/-- Observable outcome of one listener call: returned a value (`r` models the
returned value, `none` being `undefined`), threw a `Cancelled` instance, or
threw any other value. -/
inductive ListenerOutcome (V E : Type) : Type where
  | value (r : Option V)
  | cancel (c : Cancelled)
  | fail (e : E)
  deriving DecidableEq, Repr

/-- A thrown value that is not a `Cancelled` instance: either the `TypeError`
the runtime raises when a deleted (hole) slot is called, or a listener-thrown
value. -/
inductive JSError (E : Type) : Type where
  | typeError
  | user (e : E)
  deriving DecidableEq, Repr

/-- The registry: `listeners: { [P in EventPriority]: EventListeners<T> }`,
where each `EventListeners<T>` maps an event type to an optional array of
listeners. `none` means the bucket was never created. -/
structure EventEmitter (K : Type) : Type where
  listeners : EventPriority → K → Option (List (Option Nat))

/-- A fresh emitter: every bucket absent. -/
def emptyEmitter (K : Type) : EventEmitter K :=
  ⟨fun _ _ => none⟩

/-- Functional update of one `(priority, type)` bucket. -/
def setBucket {K : Type} [DecidableEq K] (em : EventEmitter K) (p : EventPriority)
    (t : K) (l : List (Option Nat)) : EventEmitter K :=
  ⟨fun q u => if q = p ∧ u = t then some l else em.listeners q u⟩

/-- `listenersOf(type, priority)`: return the bucket, creating an empty one if
absent (lazy creation, a registry mutation). Returns the updated emitter and
the bucket contents. -/
def listenersOf {K : Type} [DecidableEq K] (em : EventEmitter K) (t : K)
    (p : EventPriority) : EventEmitter K × List (Option Nat) :=
  match em.listeners p t with
  | some l => (em, l)
  | none => (setBucket em p t [], [])

/-- `on([type, priority], listener)`:
`const i = this.listenersOf(type, priority).push(listener)` — note that
JavaScript `push` returns the NEW LENGTH of the array, and that length is
what the cleanup closure captures. Returns the updated emitter and the
captured index `i`. (`on` is a reserved word in Lean, hence `onEvent`.) -/
def onEvent {K : Type} [DecidableEq K] (em : EventEmitter K) (t : K)
    (p : EventPriority) (id : Nat) : EventEmitter K × Nat :=
  let r := listenersOf em t p
  let l2 := r.2 ++ [some id]
  (setBucket r.1 p t l2, l2.length)

/-- The cleanup closure returned by `on`:
`() => delete this.listenersOf(type, priority)[i]`. `delete` on an index
below the length leaves a hole (the slot becomes `none`); on an index at or
beyond the length it is a no-op. -/
def off {K : Type} [DecidableEq K] (t : K) (p : EventPriority) (i : Nat)
    (em : EventEmitter K) : EventEmitter K :=
  let r := listenersOf em t p
  if i < r.2.length then setBucket r.1 p t (r.2.set i none) else r.1

/-- `once([type, priority], listener)` registers a wrapper
`(e) => { off(); listener(e) }` (here with identity `wrapId`) via `on` and
returns the same cleanup. The second component is the index the cleanup
captured. -/
def once {K : Type} [DecidableEq K] (em : EventEmitter K) (t : K)
    (p : EventPriority) (wrapId : Nat) : EventEmitter K × Nat :=
  onEvent em t p wrapId

/-- Behavior environment: maps a listener identity to its behavior, a
state-passing function from the registry state and the payload to the new
registry state and the call's outcome. -/
def Env (K V E : Type) : Type :=
  Nat → EventEmitter K → V → EventEmitter K × ListenerOutcome V E

/-- A behavior environment for listeners that do not touch the registry:
identity `id` behaves as the pure outcome `f id`. -/
def pureEnv {K V E : Type} (f : Nat → ListenerOutcome V E) : Env K V E :=
  fun id s _ => (s, f id)

/-- Behavior of the wrapper `once` registers: `(e) => { off(); listener(e) }`.
It first runs the cleanup (which captured index `i`), then the user body; the
arrow has a block body, so a normal completion returns `undefined`. A
`Cancelled` or other value thrown by the user body propagates out of the
wrapper. -/
def onceBody {K V E : Type} [DecidableEq K] (t : K) (p : EventPriority) (i : Nat)
    (listener : V → ListenerOutcome V E) :
    EventEmitter K → V → EventEmitter K × ListenerOutcome V E :=
  fun s e =>
    let s2 := off t p i s
    match listener e with
    | .value _ => (s2, .value none)
    | .cancel c => (s2, .cancel c)
    | .fail er => (s2, .fail er)

/-- The dispatch loop over an already-taken snapshot, together with the
enclosing `try`/`catch`: call each slot in order with the unchanged payload
`d`. A hole is `undefined`; calling it throws a `TypeError`, which is not a
`Cancelled`, so it propagates (`Except.error`). A thrown `Cancelled` is
caught and returned as the result (`Except.ok (some c)`); any other thrown
value propagates. If every call returns normally the result is `undefined`
(`Except.ok none`). Also returns the invocation trace. -/
def runSnap {K V E : Type} (env : Env K V E) (d : V) :
    List (Option Nat) → EventEmitter K →
    EventEmitter K × Except (JSError E) (Option Cancelled) × List (Nat × V)
  | [], s => (s, .ok none, [])
  | none :: _, s => (s, .error .typeError, [])
  | some id :: rest, s =>
    let r := env id s d
    match r.2 with
    | .value _ =>
      let q := runSnap env d rest r.1
      (q.1, q.2.1, (id, d) :: q.2.2)
    | .cancel c => (r.1, .ok (some c), [(id, d)])
    | .fail e => (r.1, .error (.user e), [(id, d)])

/-- `async emit(type, data)`: snapshot
`[...listenersOf(type,"before"), ...listenersOf(type,"normal"), ...listenersOf(type,"after")]`
(the three calls happen in that order and may each lazily create a bucket),
then await each listener in order inside `try`/`catch`. Returns the final
registry state, the result, and the invocation trace. -/
def emit {K V E : Type} [DecidableEq K] (env : Env K V E) (em : EventEmitter K)
    (t : K) (d : V) :
    EventEmitter K × Except (JSError E) (Option Cancelled) × List (Nat × V) :=
  let r1 := listenersOf em t .before
  let r2 := listenersOf r1.1 t .normal
  let r3 := listenersOf r2.1 t .after
  runSnap env d (r1.2 ++ r2.2 ++ r3.2) r3.1

/-- `emitSync(type, data)`: the same algorithm as `emit`, with plain calls in
place of awaited ones; the sequential semantics is identical. -/
def emitSync {K V E : Type} [DecidableEq K] (env : Env K V E) (em : EventEmitter K)
    (t : K) (d : V) :
    EventEmitter K × Except (JSError E) (Option Cancelled) × List (Nat × V) :=
  let r1 := listenersOf em t .before
  let r2 := listenersOf r1.1 t .normal
  let r3 := listenersOf r2.1 t .after
  runSnap env d (r1.2 ++ r2.2 ++ r3.2) r3.1

/-- The snapshot `emit`/`emitSync` iterate: before ++ normal ++ after,
threading the lazy bucket creation of the three `listenersOf` calls. -/
def snapshot {K : Type} [DecidableEq K] (em : EventEmitter K) (t : K) :
    List (Option Nat) :=
  let r1 := listenersOf em t .before
  let r2 := listenersOf r1.1 t .normal
  let r3 := listenersOf r2.1 t .after
  r1.2 ++ r2.2 ++ r3.2

/-- The registry state after the three `listenersOf` calls of an emission. -/
def ensureBuckets {K : Type} [DecidableEq K] (em : EventEmitter K) (t : K) :
    EventEmitter K :=
  (listenersOf (listenersOf (listenersOf em t .before).1 t .normal).1 t .after).1

/-! ### Concrete fixtures (event type `0`, payloads and thrown values are `Nat`)
used by witnesses and counterexamples -/

/-- Listeners that return `undefined` and leave the registry alone. -/
def envVal : Env Nat Nat Nat := pureEnv (fun _ => .value none)

/-- Two listeners (identities 0 and 1) registered in that order at priority
normal for event type 0. -/
def em01 : EventEmitter Nat :=
  (onEvent (onEvent (emptyEmitter Nat) 0 .normal 0).1 0 .normal 1).1

/-- Three listeners (identities 0, 1, 2) registered in that order at priority
normal for event type 0. -/
def em012 : EventEmitter Nat := (onEvent em01 0 .normal 2).1

/-- One listener per tier for event type 0: identity 10 at before, 11 at
normal, 12 at after. -/
def em3tiers : EventEmitter Nat :=
  (onEvent (onEvent (onEvent (emptyEmitter Nat) 0 .before 10).1 0 .normal 11).1 0 .after 12).1

/-- Listener 0 returns the would-be replacement payload 99; listener 1
returns `undefined`. Neither touches the registry. -/
def envC1 : Env Nat Nat Nat :=
  pureEnv (fun id => if id = 0 then .value (some 99) else .value none)

/-- Listener 1 throws a `Cancelled` (no reason); everyone else returns
`undefined`. -/
def fStop : Nat → ListenerOutcome Nat Nat :=
  fun id => if id = 1 then .cancel ⟨none⟩ else .value none

/-- Listener 0 throws the (non-`Cancelled`) value 7; everyone else returns
`undefined`. -/
def fFail : Nat → ListenerOutcome Nat Nat :=
  fun id => if id = 0 then .fail 7 else .value none

/-- The index captured by the cleanup that `once` returns when registering
into a fresh emitter: JavaScript `push` on the empty bucket returns 1,
although the wrapper sits at index 0. -/
def iC3 : Nat := (once (emptyEmitter Nat) 0 .normal 0).2

/-- A fresh emitter after `once([0], listener)`: the wrapper (identity 0)
sits in the normal bucket of event type 0. -/
def emC3 : EventEmitter Nat := (once (emptyEmitter Nat) 0 .normal 0).1

/-- Behavior environment for the `once` scenario: identity 0 behaves as the
wrapper `(e) => { off(); listener(e) }` whose cleanup captured index `iC3`,
with a user body that returns `undefined`. -/
def envC3 : Env Nat Nat Nat :=
  fun id s e =>
    if id = 0 then onceBody 0 .normal iC3 (fun _ => ListenerOutcome.value none) s e
    else (s, .value none)

/-- Listener 0 invokes, during the emission, the cleanup that captured index
2 — which deletes slot 2 (listener identity 2) from the live normal bucket
of event type 0. All outcomes are `undefined`. -/
def envC6 : Env Nat Nat Nat :=
  fun id s _ => (if id = 0 then off 0 .normal 2 s else s, ListenerOutcome.value none)

/-- Every listener registers a new listener (identity 99) at priority normal
for event type 0 while the emission is in progress, then returns
`undefined`. -/
def envMut : Env Nat Nat Nat :=
  fun _ s _ => ((onEvent s 0 .normal 99).1, ListenerOutcome.value none)

/-! ### Basic equations -/

theorem emit_eq_runSnap {K V E : Type} [DecidableEq K] (env : Env K V E)
    (em : EventEmitter K) (t : K) (d : V) :
    emit env em t d = runSnap env d (snapshot em t) (ensureBuckets em t) := rfl

theorem emitSync_eq_emit {K V E : Type} [DecidableEq K] (env : Env K V E)
    (em : EventEmitter K) (t : K) (d : V) :
    emitSync env em t d = emit env em t d := rfl

/-! ### Helper lemmas about the registry -/

theorem listenersOf_state_lookup {K : Type} [DecidableEq K] (em : EventEmitter K)
    (t : K) (p : EventPriority) (q : EventPriority) (u : K) :
    ((listenersOf em t p).1).listeners q u =
      if q = p ∧ u = t then some ((em.listeners p t).getD []) else em.listeners q u := by
  cases h : em.listeners p t with
  | some l =>
    simp only [listenersOf, h, Option.getD_some]
    by_cases hq : q = p ∧ u = t
    · obtain ⟨h1, h2⟩ := hq
      subst h1; subst h2
      simp [h]
    · simp [hq]
  | none =>
    simp [listenersOf, h, setBucket]

theorem listenersOf_snd {K : Type} [DecidableEq K] (em : EventEmitter K) (t : K)
    (p : EventPriority) :
    (listenersOf em t p).2 = (em.listeners p t).getD [] := by
  cases h : em.listeners p t <;> simp [listenersOf, h]

theorem ensureBuckets_lookup {K : Type} [DecidableEq K] (em : EventEmitter K)
    (t : K) (p : EventPriority) (u : K) :
    (ensureBuckets em t).listeners p u =
      if u = t then some ((em.listeners p u).getD []) else em.listeners p u := by
  simp only [ensureBuckets, listenersOf_state_lookup]
  cases p <;> by_cases h : u = t <;> simp [h]

theorem snapshot_of_buckets {K : Type} [DecidableEq K] (em : EventEmitter K)
    (t : K) (b n a : List (Option Nat))
    (hb : em.listeners .before t = some b)
    (hn : em.listeners .normal t = some n)
    (ha : em.listeners .after t = some a) :
    snapshot em t = b ++ n ++ a := by
  simp [snapshot, listenersOf, hb, hn, ha]

/-! ### Helper lemmas about the dispatch loop -/

theorem runSnap_state_const {K V E : Type} (env : Env K V E) (d : V)
    (hp : ∀ id s, (env id s d).1 = s) :
    ∀ (snap : List (Option Nat)) (s : EventEmitter K),
      (runSnap env d snap s).1 = s := by
  intro snap
  induction snap with
  | nil => intro s; rfl
  | cons hd rest ih =>
    intro s
    cases hd with
    | none => rfl
    | some id =>
      cases ho : (env id s d).2 with
      | value r =>
        simp only [runSnap, ho]
        rw [ih (env id s d).1, hp id s]
      | cancel c => simp only [runSnap, ho]; exact hp id s
      | fail e => simp only [runSnap, ho]; exact hp id s

theorem runSnap_all_value {K V E : Type} (env : Env K V E) (d : V) (ids : List Nat)
    (hval : ∀ id ∈ ids, ∀ s : EventEmitter K,
      ∃ r, (env id s d).2 = ListenerOutcome.value r) :
    ∀ s : EventEmitter K,
      (runSnap env d (ids.map some) s).2.1 = Except.ok none ∧
      (runSnap env d (ids.map some) s).2.2 = ids.map (fun id => (id, d)) := by
  induction ids with
  | nil => intro s; exact ⟨rfl, rfl⟩
  | cons id rest ih =>
    intro s
    obtain ⟨r, hr⟩ := hval id (by simp) s
    have ihs := ih (fun j hj s2 => hval j (by simp [hj]) s2) (env id s d).1
    simp only [List.map_cons, runSnap, hr]
    exact ⟨ihs.1, by rw [ihs.2]⟩

theorem runSnap_cancel_of {K V E : Type} (env : Env K V E) (d : V)
    (f : Nat → ListenerOutcome V E) (hf : ∀ id s, (env id s d).2 = f id)
    (preIds : List Nat) (idx : Nat) (post : List (Option Nat)) (c : Cancelled)
    (hpre : ∀ j ∈ preIds, ∃ r, f j = ListenerOutcome.value r)
    (hidx : f idx = ListenerOutcome.cancel c) :
    ∀ s : EventEmitter K,
      (runSnap env d (preIds.map some ++ some idx :: post) s).2.1 =
        Except.ok (some c) ∧
      (runSnap env d (preIds.map some ++ some idx :: post) s).2.2 =
        preIds.map (fun j => (j, d)) ++ [(idx, d)] := by
  induction preIds with
  | nil =>
    intro s
    have h := hf idx s
    rw [hidx] at h
    simp [runSnap, h]
  | cons j rest ih =>
    intro s
    obtain ⟨r, hr⟩ := hpre j (by simp)
    have h := hf j s
    rw [hr] at h
    have ihs := ih (fun j2 hj2 => hpre j2 (by simp [hj2])) (env j s d).1
    simp only [List.map_cons, List.cons_append, runSnap, h]
    exact ⟨ihs.1, congrArg (List.cons (j, d)) ihs.2⟩

theorem runSnap_fail_of {K V E : Type} (env : Env K V E) (d : V)
    (f : Nat → ListenerOutcome V E) (hf : ∀ id s, (env id s d).2 = f id)
    (preIds : List Nat) (idx : Nat) (post : List (Option Nat)) (e : E)
    (hpre : ∀ j ∈ preIds, ∃ r, f j = ListenerOutcome.value r)
    (hidx : f idx = ListenerOutcome.fail e) :
    ∀ s : EventEmitter K,
      (runSnap env d (preIds.map some ++ some idx :: post) s).2.1 =
        Except.error (JSError.user e) ∧
      (runSnap env d (preIds.map some ++ some idx :: post) s).2.2 =
        preIds.map (fun j => (j, d)) ++ [(idx, d)] := by
  induction preIds with
  | nil =>
    intro s
    have h := hf idx s
    rw [hidx] at h
    simp [runSnap, h]
  | cons j rest ih =>
    intro s
    obtain ⟨r, hr⟩ := hpre j (by simp)
    have h := hf j s
    rw [hr] at h
    have ihs := ih (fun j2 hj2 => hpre j2 (by simp [hj2])) (env j s d).1
    simp only [List.map_cons, List.cons_append, runSnap, h]
    exact ⟨ihs.1, congrArg (List.cons (j, d)) ihs.2⟩

theorem runSnap_invoked_through {K V E : Type} (env : Env K V E) (d : V)
    (f : Nat → ListenerOutcome V E) (hf : ∀ id s, (env id s d).2 = f id)
    (preIds : List Nat) (idx : Nat) (post : List (Option Nat))
    (hpre : ∀ j ∈ preIds, ∃ r, f j = ListenerOutcome.value r) :
    ∀ s : EventEmitter K, ∃ tl,
      (runSnap env d (preIds.map some ++ some idx :: post) s).2.2 =
        preIds.map (fun j => (j, d)) ++ (idx, d) :: tl := by
  induction preIds with
  | nil =>
    intro s
    cases ho : f idx with
    | value r =>
      have h := hf idx s
      rw [ho] at h
      exact ⟨(runSnap env d post (env idx s d).1).2.2, by
        simp only [List.map_nil, List.nil_append, runSnap, h]⟩
    | cancel c =>
      have h := hf idx s
      rw [ho] at h
      exact ⟨[], by simp only [List.map_nil, List.nil_append, runSnap, h]⟩
    | fail e =>
      have h := hf idx s
      rw [ho] at h
      exact ⟨[], by simp only [List.map_nil, List.nil_append, runSnap, h]⟩
  | cons j rest ih =>
    intro s
    obtain ⟨r, hr⟩ := hpre j (by simp)
    have h := hf j s
    rw [hr] at h
    obtain ⟨tl, htl⟩ := ih (fun j2 hj2 => hpre j2 (by simp [hj2])) (env j s d).1
    exact ⟨tl, by
      simp only [List.map_cons, List.cons_append, runSnap, h]
      exact congrArg (List.cons (j, d)) htl⟩

theorem runSnap_cancelled_elim {K V E : Type} (env : Env K V E) (d : V)
    (f : Nat → ListenerOutcome V E) (hf : ∀ id s, (env id s d).2 = f id) :
    ∀ (snap : List (Option Nat)) (s : EventEmitter K) (c : Cancelled),
      (runSnap env d snap s).2.1 = Except.ok (some c) →
      ∃ (preIds : List Nat) (idx : Nat) (post : List (Option Nat)),
        snap = preIds.map some ++ some idx :: post ∧
        (∀ j ∈ preIds, ∃ r, f j = ListenerOutcome.value r) ∧
        f idx = ListenerOutcome.cancel c ∧
        (runSnap env d snap s).2.2 = preIds.map (fun j => (j, d)) ++ [(idx, d)] := by
  intro snap
  induction snap with
  | nil =>
    intro s c h
    exact absurd h (by simp [runSnap])
  | cons hd rest ih =>
    intro s c h
    cases hd with
    | none => exact absurd h (by simp [runSnap])
    | some id =>
      have hout := hf id s
      cases ho : f id with
      | value r =>
        rw [ho] at hout
        have h2 : (runSnap env d rest (env id s d).1).2.1 = Except.ok (some c) := by
          simpa only [runSnap, hout] using h
        obtain ⟨preIds, idx, post, hsnap, hpre, hcan, htr⟩ := ih (env id s d).1 c h2
        refine ⟨id :: preIds, idx, post, by simp [hsnap], ?_, hcan, ?_⟩
        · intro j hj
          rcases List.mem_cons.mp hj with hj | hj
          · exact ⟨r, hj ▸ ho⟩
          · exact hpre j hj
        · simp only [runSnap, hout, List.map_cons, List.cons_append]
          exact congrArg (List.cons (id, d)) htr
      | cancel c2 =>
        rw [ho] at hout
        have hcc : c2 = c := by
          simp only [runSnap, hout] at h
          injection h with h3
          exact Option.some.inj h3
        subst hcc
        exact ⟨[], id, rest, rfl, by simp, ho, by simp [runSnap, hout]⟩
      | fail e =>
        rw [ho] at hout
        exact absurd h (by simp [runSnap, hout])

theorem runSnap_outcome_congr {K V E : Type} (env : Env K V E) (d : V)
    (f : Nat → ListenerOutcome V E) (hf : ∀ id s, (env id s d).2 = f id) :
    ∀ (snap : List (Option Nat)) (s s2 : EventEmitter K),
      (runSnap env d snap s).2 = (runSnap (pureEnv f) d snap s2).2 := by
  intro snap
  induction snap with
  | nil => intro s s2; rfl
  | cons hd rest ih =>
    intro s s2
    cases hd with
    | none => rfl
    | some id =>
      have h := hf id s
      cases ho : f id with
      | value r =>
        rw [ho] at h
        have h1 := congrArg Prod.fst (ih (env id s d).1 s2)
        have h2 := congrArg Prod.snd (ih (env id s d).1 s2)
        simp only [runSnap, h, pureEnv, ho]
        simp only at h1 h2
        rw [h1, h2]
      | cancel c =>
        rw [ho] at h
        simp [runSnap, h, pureEnv, ho]
      | fail e =>
        rw [ho] at h
        simp [runSnap, h, pureEnv, ho]

theorem runSnap_payload_const {K V E : Type} (env : Env K V E) (d : V) :
    ∀ (snap : List (Option Nat)) (s : EventEmitter K),
      ((runSnap env d snap s).2.2).map Prod.snd =
        List.replicate (runSnap env d snap s).2.2.length d := by
  intro snap
  induction snap with
  | nil => intro s; rfl
  | cons hd rest ih =>
    intro s
    cases hd with
    | none => rfl
    | some id =>
      cases ho : (env id s d).2 with
      | value r =>
        simp only [runSnap, ho, List.map_cons, List.length_cons, List.replicate_succ]
        rw [ih (env id s d).1]
      | cancel c => simp [runSnap, ho]
      | fail e => simp [runSnap, ho]

/-! ### Registry equality helpers -/

theorem emitterExt {K : Type} (a b : EventEmitter K)
    (h : ∀ p t, a.listeners p t = b.listeners p t) : a = b := by
  cases a with
  | mk fa =>
    cases b with
    | mk fb =>
      have hf : fa = fb := funext fun p => funext fun t => h p t
      rw [hf]

theorem setBucket_setBucket {K : Type} [DecidableEq K] (em : EventEmitter K)
    (p : EventPriority) (t : K) (l1 l2 : List (Option Nat)) :
    setBucket (setBucket em p t l1) p t l2 = setBucket em p t l2 := by
  apply emitterExt
  intro q u
  simp only [setBucket]
  by_cases hq : q = p ∧ u = t <;> simp [hq]

theorem off_lookup_some {K : Type} [DecidableEq K] (t : K) (p : EventPriority)
    (i : Nat) (em : EventEmitter K) (l : List (Option Nat))
    (h : em.listeners p t = some l) :
    off t p i em = if i < l.length then setBucket em p t (l.set i none) else em := by
  simp [off, listenersOf, h]

theorem off_lookup_none {K : Type} [DecidableEq K] (t : K) (p : EventPriority)
    (i : Nat) (em : EventEmitter K) (h : em.listeners p t = none) :
    off t p i em = setBucket em p t [] := by
  simp [off, listenersOf, h]

/-! ### Claim theorems -/

/-- C1 (counterexample): with listeners 0 and 1 at priority normal, listener 0
returns the would-be replacement payload 99 for the emission of payload 5,
yet listener 1 is still invoked with the original payload 5 — not 99 — and
the non-cancelled result is `Except.ok none` (`undefined`), carrying no
payload at all. This refutes the claim that a replacement returned by a
listener is passed to subsequent listeners and carried by the result. -/
theorem emit_replacement_ignored_cex :
    (emit envC1 em01 0 5).2.2 = [(0, 5), (1, 5)] ∧
    (emit envC1 em01 0 5).2.2 ≠ [(0, 5), (1, 99)] ∧
    (emit envC1 em01 0 5).2.1 = Except.ok none ∧
    (emitSync envC1 em01 0 5).2.2 = [(0, 5), (1, 5)] :=
  ⟨by decide, by decide, rfl, by decide⟩

/-- C1 (amended): listener return values are ignored by the dispatcher —
every listener invoked during an emission (sync or async) receives the
original payload `d` unchanged (every payload in the invocation trace equals
`d`), and the emission result carries no payload (its type is
`Cancelled`-or-`undefined`). -/
theorem emit_payload_never_replaced {K V E : Type} [DecidableEq K]
    (env : Env K V E) (em : EventEmitter K) (t : K) (d : V) :
    ((emit env em t d).2.2).map Prod.snd =
      List.replicate (emit env em t d).2.2.length d ∧
    ((emitSync env em t d).2.2).map Prod.snd =
      List.replicate (emitSync env em t d).2.2.length d := by
  have h := runSnap_payload_const env d (snapshot em t) (ensureBuckets em t)
  exact ⟨h, h⟩

/-- C2: for both emission variants, the result is the caught `Cancelled`
value `c` if and only if the call-time snapshot decomposes into a prefix of
listeners that all return normally, followed by a listener that throws
`Cancelled c`; in that case the invocation trace is exactly that prefix and
the cancelling listener (so no listener scheduled after it, in
before/normal/after-plus-insertion order, is invoked), and the result
carries the very signal thrown (hence its reason). -/
theorem emit_cancelled_iff {K V E : Type} [DecidableEq K] (env : Env K V E)
    (em : EventEmitter K) (t : K) (d : V) (f : Nat → ListenerOutcome V E)
    (hf : ∀ id s, (env id s d).2 = f id) (c : Cancelled) :
    ((emit env em t d).2.1 = Except.ok (some c) ↔
      ∃ (preIds : List Nat) (idx : Nat) (post : List (Option Nat)),
        snapshot em t = preIds.map some ++ some idx :: post ∧
        (∀ j ∈ preIds, ∃ r, f j = ListenerOutcome.value r) ∧
        f idx = ListenerOutcome.cancel c ∧
        (emit env em t d).2.2 = preIds.map (fun j => (j, d)) ++ [(idx, d)]) ∧
    ((emitSync env em t d).2.1 = Except.ok (some c) ↔
      ∃ (preIds : List Nat) (idx : Nat) (post : List (Option Nat)),
        snapshot em t = preIds.map some ++ some idx :: post ∧
        (∀ j ∈ preIds, ∃ r, f j = ListenerOutcome.value r) ∧
        f idx = ListenerOutcome.cancel c ∧
        (emitSync env em t d).2.2 = preIds.map (fun j => (j, d)) ++ [(idx, d)]) := by
  have main : (emit env em t d).2.1 = Except.ok (some c) ↔
      ∃ (preIds : List Nat) (idx : Nat) (post : List (Option Nat)),
        snapshot em t = preIds.map some ++ some idx :: post ∧
        (∀ j ∈ preIds, ∃ r, f j = ListenerOutcome.value r) ∧
        f idx = ListenerOutcome.cancel c ∧
        (emit env em t d).2.2 = preIds.map (fun j => (j, d)) ++ [(idx, d)] := by
    constructor
    · intro h
      exact runSnap_cancelled_elim env d f hf (snapshot em t) (ensureBuckets em t) c h
    · rintro ⟨preIds, idx, post, h1, h2, h3, _⟩
      have h := runSnap_cancel_of env d f hf preIds idx post c h2 h3 (ensureBuckets em t)
      show (runSnap env d (snapshot em t) (ensureBuckets em t)).2.1 = Except.ok (some c)
      rw [h1]
      exact h.1
  exact ⟨main, main⟩

/-- C2 (witness): three listeners at normal priority; listener 1 throws a
`Cancelled` with no reason, so emitting payload 5 yields that `Cancelled` as
the result. -/
theorem emit_cancelled_iff_witness :
    (emit (pureEnv fStop) em012 0 5).2.1 = Except.ok (some ⟨none⟩) :=
  ((emit_cancelled_iff (pureEnv fStop) em012 0 5 fStop (fun _ _ => rfl) ⟨none⟩).1).mpr
    ⟨[0], 1, [some 2], by decide,
      fun j hj => ⟨none, by
        have hj0 : j = 0 := by simpa using hj
        rw [hj0]; rfl⟩,
      rfl, by decide⟩

/-- C3 (code bug, evaluated at the failing input): registering a listener via
`once` on a fresh emitter captures index 1 from `push` although the wrapper
sits at index 0, so the self-removal inside the wrapper deletes nothing:
after a first emission (in which the wrapper ran), the wrapper is still in
the normal bucket, and a second emission invokes it again — contradicting
both the claim and the source's own description of `once` as a
self-cancelling listener. -/
theorem once_listener_runs_again :
    iC3 = 1 ∧
    (emit envC3 emC3 0 7).2.2 = [(0, 7)] ∧
    (emit envC3 emC3 0 7).1.listeners .normal 0 = some [some 0] ∧
    (emit envC3 (emit envC3 emC3 0 7).1 0 7).2.2 = [(0, 7)] :=
  ⟨by decide, by decide, by decide, by decide⟩

/-- C4: when the three buckets of the emitted type hold (hole-free) listeners
`bids`, `nids`, `aids` in insertion order and every one of them returns
normally, both emission variants invoke exactly
before ++ normal ++ after, each tier in insertion order, each listener with
the emitted payload. -/
theorem emit_priority_insertion_order {K V E : Type} [DecidableEq K]
    (env : Env K V E) (em : EventEmitter K) (t : K) (d : V)
    (bids nids aids : List Nat)
    (hb : em.listeners .before t = some (bids.map some))
    (hn : em.listeners .normal t = some (nids.map some))
    (ha : em.listeners .after t = some (aids.map some))
    (hval : ∀ id ∈ bids ++ nids ++ aids, ∀ s : EventEmitter K,
      ∃ r, (env id s d).2 = ListenerOutcome.value r) :
    (emit env em t d).2.2 = (bids ++ nids ++ aids).map (fun id => (id, d)) ∧
    (emitSync env em t d).2.2 = (bids ++ nids ++ aids).map (fun id => (id, d)) := by
  have hsnap : snapshot em t = (bids ++ nids ++ aids).map some := by
    rw [snapshot_of_buckets em t _ _ _ hb hn ha]
    simp
  have main : (emit env em t d).2.2 =
      (bids ++ nids ++ aids).map (fun id => (id, d)) := by
    show (runSnap env d (snapshot em t) (ensureBuckets em t)).2.2 = _
    rw [hsnap]
    exact (runSnap_all_value env d (bids ++ nids ++ aids) hval (ensureBuckets em t)).2
  exact ⟨main, main⟩

/-- C4 (witness): one listener per tier (10 before, 11 normal, 12 after),
all returning normally: the trace is exactly 10, 11, 12 with payload 3. -/
theorem emit_priority_insertion_order_witness :
    (emit envVal em3tiers 0 3).2.2 = [(10, 3), (11, 3), (12, 3)] := by
  have h := (emit_priority_insertion_order envVal em3tiers 0 3 [10] [11] [12]
    (by decide) (by decide) (by decide) (fun id hid s => ⟨none, rfl⟩)).1
  rw [h]
  rfl

/-- C5 (code bug, evaluated at the failing input): register listener 0 and
then listener 1 at priority normal. Listener 0's cleanup captured index 1
(`push` returns the new length), so invoking it deletes slot 1 — listener 1,
registered independently — while listener 0 stays in the bucket and is still
invoked by the next emission; that emission then hits the hole left by
`delete` and throws a `TypeError` instead of running to completion. The
claim (and the source's own description of the returned cleanup) says
exactly the registered listener is removed. -/
theorem cleanup_removes_wrong_listener :
    (onEvent (emptyEmitter Nat) 0 .normal 0).2 = 1 ∧
    (off 0 .normal 1 em01).listeners .normal 0 = some [some 0, none] ∧
    (emit envVal (off 0 .normal 1 em01) 0 3).2.2 = [(0, 3)] ∧
    (emit envVal (off 0 .normal 1 em01) 0 3).2.1 = Except.error JSError.typeError :=
  ⟨by decide, by decide, by decide, rfl⟩

/-- C6 (counterexample): listeners 0, 1, 2 at priority normal; listener 0
invokes, during the emission, the cleanup that deletes slot 2, so listener 2
is removed from the live registry before being invoked (the final registry
shows the hole) — yet listener 2 is still invoked in that same emission,
because the emission iterates the call-time snapshot. This refutes the claim
that a listener removed mid-emission before its turn is never invoked in
that emission. -/
theorem removed_mid_emission_still_invoked_cex :
    (emit envC6 em012 0 5).2.2 = [(0, 5), (1, 5), (2, 5)] ∧
    (emit envC6 em012 0 5).1.listeners .normal 0 = some [some 0, some 1, none] :=
  ⟨by decide, by decide⟩

/-- C6 (amended): removal during an in-progress emission has no effect on
that emission. Whatever registry mutations the already-run listeners
performed (the environment's state effects are unconstrained, so they may
remove any listener), a not-yet-invoked listener occupying a snapshot slot
after a normally-returning prefix is still invoked — with the original
payload — in that same emission; listeners already invoked are, a fortiori,
unaffected. -/
theorem emit_mid_emission_removal_no_effect {K V E : Type} [DecidableEq K]
    (env : Env K V E) (em : EventEmitter K) (t : K) (d : V)
    (f : Nat → ListenerOutcome V E) (hf : ∀ id s, (env id s d).2 = f id)
    (preIds : List Nat) (idx : Nat) (post : List (Option Nat))
    (hsnap : snapshot em t = preIds.map some ++ some idx :: post)
    (hpre : ∀ j ∈ preIds, ∃ r, f j = ListenerOutcome.value r) :
    (idx, d) ∈ (emit env em t d).2.2 ∧ (idx, d) ∈ (emitSync env em t d).2.2 := by
  obtain ⟨tl, htl⟩ :=
    runSnap_invoked_through env d f hf preIds idx post hpre (ensureBuckets em t)
  have main : (idx, d) ∈ (emit env em t d).2.2 := by
    show (idx, d) ∈ (runSnap env d (snapshot em t) (ensureBuckets em t)).2.2
    rw [hsnap, htl]
    simp
  exact ⟨main, main⟩

/-- C6 (witness): in the counterexample scenario (listener 0 deletes slot 2
mid-emission), listener 2 is still invoked with the original payload 5. -/
theorem emit_mid_emission_removal_no_effect_witness :
    (2, 5) ∈ (emit envC6 em012 0 5).2.2 :=
  (emit_mid_emission_removal_no_effect envC6 em012 0 5
    (fun _ => ListenerOutcome.value none) (fun _ _ => rfl)
    [0, 1] 2 [] (by decide) (fun j hj => ⟨none, rfl⟩)).1

/-- C7: the dispatcher snapshots before ++ normal ++ after at call time, so
listeners whose outcomes do not depend on the registry state but whose state
effects are arbitrary — in particular listeners that register new listeners
mid-emission — produce exactly the same result and the same invocation trace
(same set and order of invoked listeners) as registry-inert listeners with
the same outcomes: mutation during an emission never changes what that
emission invokes and never corrupts its iteration. -/
theorem emit_snapshot_insensitive {K V E : Type} [DecidableEq K]
    (env : Env K V E) (em : EventEmitter K) (t : K) (d : V)
    (f : Nat → ListenerOutcome V E) (hf : ∀ id s, (env id s d).2 = f id) :
    (emit env em t d).2 = (emit (pureEnv f) em t d).2 ∧
    (emitSync env em t d).2 = (emitSync (pureEnv f) em t d).2 := by
  have h := runSnap_outcome_congr env d f hf (snapshot em t)
    (ensureBuckets em t) (ensureBuckets em t)
  exact ⟨h, h⟩

/-- C7 (witness): listeners that register identity 99 mid-emission yield the
same result and trace as registry-inert listeners. -/
theorem emit_snapshot_insensitive_witness :
    (emit envMut em01 0 5).2 =
      (emit (pureEnv (fun _ => ListenerOutcome.value none)) em01 0 5).2 :=
  (emit_snapshot_insensitive envMut em01 0 5
    (fun _ => ListenerOutcome.value none) (fun _ _ => rfl)).1

/-- C8: with a normally-returning prefix before snapshot position `idx`, if
listener `idx` throws `Cancelled c` the dispatcher catches it and returns it
as the result (it never escapes `emit`/`emitSync` as an error), whereas if
listener `idx` throws any other value `e`, the emission propagates it to the
caller (`Except.error`) and the invocation trace stops at `idx` — no
remaining listener is invoked. -/
theorem emit_cancel_caught_failure_propagates {K V E : Type} [DecidableEq K]
    (env : Env K V E) (em : EventEmitter K) (t : K) (d : V)
    (f : Nat → ListenerOutcome V E) (hf : ∀ id s, (env id s d).2 = f id)
    (preIds : List Nat) (idx : Nat) (post : List (Option Nat))
    (hpre : ∀ j ∈ preIds, ∃ r, f j = ListenerOutcome.value r)
    (hsnap : snapshot em t = preIds.map some ++ some idx :: post) :
    (∀ c, f idx = ListenerOutcome.cancel c →
      (emit env em t d).2.1 = Except.ok (some c) ∧
      (emitSync env em t d).2.1 = Except.ok (some c)) ∧
    (∀ e, f idx = ListenerOutcome.fail e →
      ((emit env em t d).2.1 = Except.error (JSError.user e) ∧
        (emit env em t d).2.2 = preIds.map (fun j => (j, d)) ++ [(idx, d)]) ∧
      ((emitSync env em t d).2.1 = Except.error (JSError.user e) ∧
        (emitSync env em t d).2.2 = preIds.map (fun j => (j, d)) ++ [(idx, d)])) := by
  constructor
  · intro c hc
    have h := runSnap_cancel_of env d f hf preIds idx post c hpre hc (ensureBuckets em t)
    have main : (emit env em t d).2.1 = Except.ok (some c) := by
      show (runSnap env d (snapshot em t) (ensureBuckets em t)).2.1 = _
      rw [hsnap]
      exact h.1
    exact ⟨main, main⟩
  · intro e he
    have h := runSnap_fail_of env d f hf preIds idx post e hpre he (ensureBuckets em t)
    have main1 : (emit env em t d).2.1 = Except.error (JSError.user e) := by
      show (runSnap env d (snapshot em t) (ensureBuckets em t)).2.1 = _
      rw [hsnap]
      exact h.1
    have main2 : (emit env em t d).2.2 =
        preIds.map (fun j => (j, d)) ++ [(idx, d)] := by
      show (runSnap env d (snapshot em t) (ensureBuckets em t)).2.2 = _
      rw [hsnap]
      exact h.2
    exact ⟨⟨main1, main2⟩, main1, main2⟩

/-- C8 (witness): listener 0 (of listeners 0 and 1 at normal priority) throws
the non-`Cancelled` value 7: the emission of payload 3 propagates it as an
error and listener 1 is never invoked. -/
theorem emit_cancel_caught_failure_propagates_witness :
    (emit (pureEnv fFail) em01 0 3).2.1 = Except.error (JSError.user 7) ∧
    (emit (pureEnv fFail) em01 0 3).2.2 = [(0, 3)] := by
  have h := (emit_cancel_caught_failure_propagates (pureEnv fFail) em01 0 3 fFail
    (fun _ _ => rfl) [] 0 [some 1] (by simp) (by decide)).2 7 rfl
  exact ⟨h.1.1, by rw [h.1.2]; rfl⟩

/-- C9: the cleanup returned by registration is idempotent on the registry
state — invoking it a second (or any further) time is a no-op: the state
after two invocations equals the state after one. (The model of the cleanup
is a total function, mirroring that JavaScript `delete` on an absent index
never throws.) -/
theorem off_idempotent {K : Type} [DecidableEq K] (t : K) (p : EventPriority)
    (i : Nat) (em : EventEmitter K) :
    off t p i (off t p i em) = off t p i em := by
  cases h : em.listeners p t with
  | none =>
    rw [off_lookup_none t p i em h]
    have h2 : (setBucket em p t []).listeners p t = some [] := by simp [setBucket]
    rw [off_lookup_some t p i _ [] h2]
    simp
  | some l =>
    by_cases hi : i < l.length
    · rw [off_lookup_some t p i em l h, if_pos hi]
      have h2 : (setBucket em p t (l.set i none)).listeners p t =
          some (l.set i none) := by simp [setBucket]
      rw [off_lookup_some t p i _ _ h2]
      rw [if_pos (by simpa using hi)]
      rw [List.set_set]
      exact setBucket_setBucket em p t _ _
    · rw [off_lookup_some t p i em l h, if_neg hi,
        off_lookup_some t p i em l h, if_neg hi]

/-- C10: an emission whose listeners leave the registry alone (their state
effect is the identity) leaves every bucket of every other event type
untouched, and for the emitted type it only materializes the three buckets
(absent becomes an empty bucket, present contents stay exactly as they
were) — no listener is added, removed or reordered — regardless of whether
the emission completes, is cancelled, or propagates a failure. -/
theorem emit_frame_effect {K V E : Type} [DecidableEq K] (env : Env K V E)
    (em : EventEmitter K) (t : K) (d : V)
    (hp : ∀ id s, (env id s d).1 = s) :
    (∀ (p : EventPriority) (u : K), u ≠ t →
      (emit env em t d).1.listeners p u = em.listeners p u ∧
      (emitSync env em t d).1.listeners p u = em.listeners p u) ∧
    (∀ p : EventPriority,
      (emit env em t d).1.listeners p t = some ((em.listeners p t).getD []) ∧
      (emitSync env em t d).1.listeners p t = some ((em.listeners p t).getD [])) := by
  have hstate : (emit env em t d).1 = ensureBuckets em t :=
    runSnap_state_const env d hp (snapshot em t) (ensureBuckets em t)
  constructor
  · intro p u hu
    have h := ensureBuckets_lookup em t p u
    rw [if_neg hu] at h
    constructor
    · show (emit env em t d).1.listeners p u = em.listeners p u
      rw [hstate]
      exact h
    · show (emit env em t d).1.listeners p u = em.listeners p u
      rw [hstate]
      exact h
  · intro p
    have h := ensureBuckets_lookup em t p t
    rw [if_pos rfl] at h
    constructor
    · show (emit env em t d).1.listeners p t = some ((em.listeners p t).getD [])
      rw [hstate]
      exact h
    · show (emit env em t d).1.listeners p t = some ((em.listeners p t).getD [])
      rw [hstate]
      exact h

/-- C10 (witness): emitting on event type 0 with registry-inert listeners
leaves the normal bucket of type 0 exactly as registered and keeps the
bucket of the unrelated type 5 absent. -/
theorem emit_frame_effect_witness :
    (emit envVal em01 0 3).1.listeners .normal 0 = some [some 0, some 1] ∧
    (emit envVal em01 0 3).1.listeners .normal 5 = none := by
  have h1 := ((emit_frame_effect envVal em01 0 3 (fun _ _ => rfl)).2 EventPriority.normal).1
  have h2 := ((emit_frame_effect envVal em01 0 3 (fun _ _ => rfl)).1 EventPriority.normal 5
    (by decide)).1
  constructor
  · rw [h1]
    rfl
  · rw [h2]
    rfl

end DenoEvents
